import Mathlib

/-!
Verification of the PetPulse server's asynchronous pipeline and alert
escalation engine, shallowly embedded from the Rust sources
(`src/worker.rs`, `src/agent/comfort_loop.rs`).  Database queries,
object-storage downloads and the external analysis/notification services
are modelled as explicit oracle inputs; each DB mutation is recorded as an
effect so that the committed state changes of a run can be inspected.
-/

namespace PetPulse

/-! ## Alert escalation counting (comfort_loop.rs, `process_alert` step 2a)

The engine counts prior alerts for the same pet and alert type whose
`created_at` is at least `now - 1 hour` (`CreatedAt.gte(one_hour_ago)`),
then adds one for the current alert.  Times are modelled as seconds. -/

/-- The DB count query: prior same-pet same-type alert creation times within
the trailing 3600-second window of `now`. -/
def recentAlertCount (created : List Nat) (now : Nat) : Nat :=
  (created.filter (fun t => now ≤ t + 3600)).length

/-- `current_alert_count = recent_alert_count + 1` (the current alert is
included). -/
def currentAlertCount (created : List Nat) (now : Nat) : Nat :=
  recentAlertCount created now + 1

/-- The running count computed for the `k`-th alert of a same-pet, same-type
sequence processed at times `t 0, t 1, …`: all previously persisted alerts
`t 0 … t (k-1)` are candidates for the window query. -/
def countAt (t : Nat → Nat) (k : Nat) : Nat :=
  currentAlertCount ((List.range k).map t) (t k)

/-! ## Severity escalation override (comfort_loop.rs, step 2b) -/

/-- `final_severity`: if `current_alert_count >= 5 && severity_level !=
"critical"` the severity level is forced to `"high"`, otherwise the resolved
severity level is kept. -/
def finalSeverity (currentCount : Nat) (severityLevel : String) : String :=
  if 5 ≤ currentCount ∧ severityLevel ≠ "critical" then "high" else severityLevel

/-! ## Rust `i32` parsing of the payload's `pet_id` (comfort_loop.rs step 1) -/

/-- Digit-string to number: `none` unless the string is nonempty and all
digits (mirrors `str::parse` digit handling). -/
def digitsToNat (cs : List Char) : Option Nat :=
  match cs with
  | [] => none
  | _ =>
    if cs.all Char.isDigit then
      some (cs.foldl (fun n c => n * 10 + (c.toNat - 48)) 0)
    else none

/-- Model of Rust `"…".parse::<i32>()`: optional sign, then digits, and the
value must fit in a signed 32-bit integer. -/
def parseI32 (s : String) : Option Int :=
  let signed : Int × List Char :=
    match s.toList with
    | '-' :: r => (-1, r)
    | '+' :: r => (1, r)
    | r => (1, r)
  match digitsToNat signed.2 with
  | none => none
  | some n =>
    let v : Int := signed.1 * n
    if -(2 ^ 31) ≤ v ∧ v ≤ 2 ^ 31 - 1 then some v else none

/-! ## Storage-URI parsing (worker.rs, download block)

`gcs_path.trim_start_matches("gs://").splitn(2, '/')`: the `gs://` prefix is
stripped (repeatedly, per `trim_start_matches` semantics) and the remainder
is split at the first `/`; the parse is rejected (`parts.len() != 2`) exactly
when the remainder contains no `/`. -/

/-- The pattern `"gs://"` as a character list. -/
def gsPrefix : List Char := ['g', 's', ':', '/', '/']

/-- Fuel-indexed loop for `trim_start_matches("gs://")` over character
lists. -/
def stripGsLoop : Nat → List Char → List Char
  | 0, cs => cs
  | n + 1, cs =>
    if gsPrefix.isPrefixOf cs then stripGsLoop n (cs.drop 5) else cs

/-- `trim_start_matches("gs://")`: remove every leading occurrence of the
pattern (the string length bounds the number of removals). -/
def trimStartMatchesGs (cs : List Char) : List Char :=
  stripGsLoop cs.length cs

/-- `splitn(2, '/')`: at most two parts, split at the first slash. -/
def splitn2Slash (cs : List Char) : List (List Char) :=
  let pre := cs.takeWhile fun c => c ≠ '/'
  match cs.dropWhile (fun c => c ≠ '/') with
  | [] => [pre]
  | _ :: tail => [pre, tail]

/-- The `parts` list computed by the worker from the stored file path. -/
def parseGcsParts (path : String) : List String :=
  (splitn2Slash (trimStartMatchesGs path.toList)).map fun cs => String.mk cs

/-! ## Video worker (worker.rs, `process_video`) -/

/-- The mutable row state of a `pet_video` record as the worker sees it. -/
structure PetVideoRow where
  petId : Int
  filePath : String
  status : String
  retryCount : Int
  isUnusual : Bool
  deriving Repr, DecidableEq

/-- Outcome of the GCS `download_object` call. -/
inductive DownloadResult
  | ok
  | err
  deriving Repr, DecidableEq

/-- Successful analysis data as consumed by the worker. -/
structure AnalysisData where
  severityLevel : String
  isUnusual : Bool
  deriving Repr, DecidableEq

/-- External-world oracle for one `process_video` run: the download outcome,
whether the scratch-file write succeeds, and the outcome the analysis service
would give for an existing file. -/
structure WorkerEnv where
  download : DownloadResult
  tempWriteOk : Bool
  analysis : Except String AnalysisData
  deriving Repr

/-- A committed DB write of the job row: the (status, retry_count) pair in
effect after the update. -/
structure JobWrite where
  status : String
  retryCount : Int
  deriving Repr, DecidableEq

/-- Result of one `process_video` run: final row state, the sequence of
committed row writes, whether the job descriptor was pushed back onto the
video queue, and whether a digest job was enqueued. -/
structure WorkerResult where
  job : PetVideoRow
  writes : List JobWrite
  requeued : Bool
  digestEnqueued : Bool
  deriving Repr, DecidableEq

/-- Whether the scratch file `/tmp/{video_id}` ends up written: requires a
well-formed URI, a successful download and a successful filesystem write
(`return` on any earlier failure skips the `tokio::fs::write`). -/
def tempWritten (video : PetVideoRow) (env : WorkerEnv) : Bool :=
  (parseGcsParts video.filePath).length = 2 &&
    env.download = DownloadResult.ok && env.tempWriteOk

/-- The effective outcome of `gemini.analyze_video_with_usage(temp_file)`:
when the scratch file was never written, `upload_file`'s `File::open` fails
(gemini.rs), so the call errors regardless of the service. -/
def analysisOutcome (video : PetVideoRow) (env : WorkerEnv) :
    Except String AnalysisData :=
  if tempWritten video env then env.analysis
  else Except.error "No such file or directory"

/-- The download `async` block of `process_video`: takes the job after the
`PROCESSING` write and returns the row state and committed writes when the
block finishes (a malformed URI commits `FAILED`; download or scratch-write
failures commit nothing beyond an error metric, because the block's `return`
aborts only the block). -/
def downloadBlock (video : PetVideoRow) : PetVideoRow × List JobWrite :=
  let v1 : PetVideoRow := { video with status := "PROCESSING" }
  let w1 : List JobWrite := [⟨v1.status, v1.retryCount⟩]
  if (parseGcsParts video.filePath).length ≠ 2 then
    let vf : PetVideoRow := { v1 with status := "FAILED" }
    (vf, w1 ++ [⟨vf.status, vf.retryCount⟩])
  else
    (v1, w1)

/-- Shallow embedding of `process_video` (worker.rs).  The download step runs
inside an inner `async` block whose `return` statements abort only that
block, so the analysis step always executes afterwards; this is modelled
faithfully: the malformed-URI `FAILED` write is recorded and control then
continues into the analysis match. -/
def processVideo (video : PetVideoRow) (env : WorkerEnv) : WorkerResult :=
  -- steps 2-3: PROCESSING write, then the download async block
  let v2 := (downloadBlock video).1
  let w2 := (downloadBlock video).2
  -- step 4: the analysis async block (always reached)
  match analysisOutcome video env with
  | Except.ok a =>
    let v3 : PetVideoRow := { v2 with status := "PROCESSED", isUnusual := a.isUnusual }
    { job := v3
      writes := w2 ++ [⟨v3.status, v3.retryCount⟩]
      requeued := false
      digestEnqueued := true }
  | Except.error _ =>
    -- note: the retry branch rebuilds the active model from the original row
    if video.retryCount < 2 then
      let v3 : PetVideoRow :=
        { video with status := "Retrying", retryCount := video.retryCount + 1 }
      { job := v3
        writes := w2 ++ [⟨v3.status, v3.retryCount⟩]
        requeued := true
        digestEnqueued := false }
    else
      let v3 : PetVideoRow := { video with status := "FAILED" }
      { job := v3
        writes := w2 ++ [⟨v3.status, v3.retryCount⟩]
        requeued := false
        digestEnqueued := false }

/-! ## Alert Escalation Engine (comfort_loop.rs) -/

/-- The closed alert-type enum of `AlertPayload`. -/
inductive AlertType
  | Pacing
  | Vocalization
  | PositionChanges
  | DoorProximity
  | Restlessness
  | AttentionSeeking
  | UnusualBehavior
  | ProcessingError
  | QueueDepthHigh
  | Comfort
  deriving Repr, DecidableEq

/-- `AlertType::to_string` (comfort_loop.rs). -/
def alertTypeToString (t : AlertType) : String :=
  match t with
  | AlertType.Pacing => "pacing"
  | AlertType.Vocalization => "vocalization"
  | AlertType.PositionChanges => "position_changes"
  | AlertType.DoorProximity => "door_proximity"
  | AlertType.Restlessness => "restlessness"
  | AlertType.AttentionSeeking => "attention_seeking"
  | AlertType.UnusualBehavior => "unusual_behavior"
  | AlertType.ProcessingError => "processing_error"
  | AlertType.QueueDepthHigh => "queue_depth_high"
  | AlertType.Comfort => "comfort"

/-- `EnvironmentAction` enum. -/
inductive EnvironmentAction
  | DimLights
  | WarmTemperature
  deriving Repr, DecidableEq

/-- `NotificationLevel` enum. -/
inductive NotificationLevel
  | Standard
  | Critical
  deriving Repr, DecidableEq

/-- `Intervention` enum. -/
inductive Intervention
  | PlayCalmingMusic
  | PlayOwnerVoice
  | DispenseTreat
  | AdjustEnvironment (a : EnvironmentAction)
  | NotifyUser (l : NotificationLevel)
  | LogOnly
  deriving Repr, DecidableEq

/-- The Rust `format!("{:?}", intervention)` Debug rendering persisted in the
`intervention_action` column. -/
def interventionDebug (i : Intervention) : String :=
  match i with
  | Intervention.PlayCalmingMusic => "PlayCalmingMusic"
  | Intervention.PlayOwnerVoice => "PlayOwnerVoice"
  | Intervention.DispenseTreat => "DispenseTreat"
  | Intervention.AdjustEnvironment EnvironmentAction.DimLights =>
    "AdjustEnvironment(DimLights)"
  | Intervention.AdjustEnvironment EnvironmentAction.WarmTemperature =>
    "AdjustEnvironment(WarmTemperature)"
  | Intervention.NotifyUser NotificationLevel.Standard => "NotifyUser(Standard)"
  | Intervention.NotifyUser NotificationLevel.Critical => "NotifyUser(Critical)"
  | Intervention.LogOnly => "LogOnly"

/-- The relevant fields of the inbound `AlertPayload`. -/
structure AlertPayload where
  petId : String
  alertType : AlertType
  severity : String
  message : Option String
  severityLevel : Option String
  /-- `context.severity_level`, when the context object carries a string
  there. -/
  contextSeverityLevel : Option String
  videoId : Option String
  deriving Repr

/-- Step 1 of `process_alert`: `severity_level` from the payload, else from
the embedded context object, defaulting to `"low"`. -/
def resolveSeverityLevel (p : AlertPayload) : String :=
  (p.severityLevel.orElse fun _ => p.contextSeverityLevel).getD "low"

/-- Observable effects of one `process_alert` run, in program order.  Every
DB mutation, executed action, notifier call, quick-action generation call and
monitoring wait is recorded. -/
inductive AgentEffect
  | insertAlert (petId : Int) (alertType : String) (severity : String)
      (severityLevel : String)
  | executeAction (i : Intervention)
  | notifySend (channel : String)
  | updateIntervention (action : String)
  | incrementCriticalMetric (petId : Int)
  | updateNotification (sent : Bool) (channels : List String) (action : String)
      (outcome : String)
  | genQuickActions (severity : String)
  | sleepSeconds (n : Nat)
  | updateOutcome (outcome : String)
  deriving Repr, DecidableEq

/-- `execute_action`: a `NotifyUser` intervention invokes
`notifier.notify_critical_alert`, which sends on the email channel (Pub/Sub
or SendGrid) and the SMS channel (twilio.rs); other interventions only log. -/
def executeActionEffects (i : Intervention) : List AgentEffect :=
  match i with
  | Intervention.NotifyUser _ =>
    [AgentEffect.executeAction i, AgentEffect.notifySend "email",
     AgentEffect.notifySend "sms"]
  | _ => [AgentEffect.executeAction i]

/-- The `0..=2` match arm of `decide_intervention` over the alert type. -/
def interventionBucket12 (alertType : AlertType) : Intervention :=
  match alertType with
  | AlertType.Pacing | AlertType.Restlessness =>
    Intervention.AdjustEnvironment EnvironmentAction.DimLights
  | AlertType.Vocalization | AlertType.AttentionSeeking =>
    Intervention.PlayCalmingMusic
  | AlertType.UnusualBehavior => Intervention.PlayCalmingMusic
  | _ => Intervention.LogOnly

/-- The `3` match arm of `decide_intervention` over the alert type. -/
def interventionBucket3 (alertType : AlertType) : Intervention :=
  match alertType with
  | AlertType.Pacing | AlertType.Restlessness => Intervention.PlayOwnerVoice
  | AlertType.Vocalization => Intervention.DispenseTreat
  | _ => Intervention.PlayOwnerVoice

/-- `decide_intervention`: returns the chosen intervention together with the
side effects executed inside the decision itself (the 4th-alert composite
executes `PlayOwnerVoice` immediately).  The Rust `match alert_count`
arms `0..=2`, `3`, `4`, `_` are rendered as an if-chain. -/
def decideIntervention (alertType : AlertType) (alertCount : Nat)
    (severityLevel : String) : Intervention × List AgentEffect :=
  if severityLevel = "critical" then
    (Intervention.NotifyUser NotificationLevel.Critical, [])
  else if alertCount ≤ 2 then
    (interventionBucket12 alertType, [])
  else if alertCount = 3 then
    (interventionBucket3 alertType, [])
  else if alertCount = 4 then
    (Intervention.NotifyUser NotificationLevel.Standard,
     executeActionEffects Intervention.PlayOwnerVoice)
  else
    (Intervention.NotifyUser NotificationLevel.Standard, [])

/-- DB/monitoring oracle for one `process_alert` run. -/
structure AgentEnv where
  /-- Result of the recent-alert count query; `none` models a DB error
  (the code then defaults to 0). -/
  recentCount : Option Nat
  /-- Whether the initial alert insert succeeds (on failure the engine
  returns at once). -/
  insertOk : Bool
  /-- `is_unusual` of the pet's latest PROCESSED video at the monitoring
  re-check; `none` when no such video exists. -/
  latestVideoUnusual : Option Bool
  deriving Repr

/-- The running same-type count the engine derives from its count query. -/
def currentCountOf (env : AgentEnv) : Nat :=
  env.recentCount.getD 0 + 1

/-- Monitoring outcome text persisted after the 30-second wait. -/
def monitorOutcome (latest : Option Bool) : String :=
  match latest with
  | some false => "Resolution: Pet behavior returned to normal. Alert resolved."
  | some true =>
    "Alert persists: Unusual behavior continues. May trigger escalation on next alert."
  | none => "No new video data available for resolution check."

/-- `handle_critical_alert`: notifier on both channels, then the alert row is
updated with the notification bookkeeping. -/
def criticalBranchEffects : List AgentEffect :=
  [AgentEffect.notifySend "email", AgentEffect.notifySend "sms",
   AgentEffect.updateNotification true ["email", "sms"]
     "CRITICAL_NOTIFICATION_SENT" "Waiting for user acknowledgement"]

/-- Shallow embedding of `ComfortLoop::process_alert`: the ordered list of
effects of one run. -/
def processAlert (p : AlertPayload) (env : AgentEnv) : List AgentEffect :=
  let dbPetId : Int := (parseI32 p.petId).getD 1
  let severityLevel := resolveSeverityLevel p
  let currentCount := currentCountOf env
  let finalSev := finalSeverity currentCount severityLevel
  let severityCol : String :=
    if finalSev = "critical" then "critical"
    else if finalSev = "high" then "high"
    else p.severity
  if ¬ env.insertOk then []
  else
    let insert := AgentEffect.insertAlert dbPetId (alertTypeToString p.alertType)
      severityCol finalSev
    let decided := decideIntervention p.alertType currentCount finalSev
    let head := insert :: decided.2 ++ executeActionEffects decided.1 ++
      [AgentEffect.updateIntervention (interventionDebug decided.1)]
    if finalSev = "critical" then
      head ++ AgentEffect.incrementCriticalMetric dbPetId ::
        criticalBranchEffects ++ [AgentEffect.genQuickActions "critical"]
    else
      head ++
        (if finalSev = "high" then [AgentEffect.genQuickActions "high"] else []) ++
        [AgentEffect.sleepSeconds 30,
         AgentEffect.updateOutcome (monitorOutcome env.latestVideoUnusual)]

/-! ## Quick-action generation (comfort_loop.rs, `generate_quick_actions`) -/

/-- An emergency-contact row as the generator reads it. -/
structure Contact where
  id : Int
  name : String
  contactType : String
  deriving Repr, DecidableEq

/-- A `quick_actions` row (the columns the generator writes). -/
structure QuickActionRow where
  id : Nat
  alertId : Nat
  contactId : Int
  actionType : String
  message : String
  status : String
  deriving Repr, DecidableEq

/-- The dedup query: is some row for this contact in `pending` status?
(`.filter(EmergencyContactId.eq(..)).filter(Status.eq("pending")).one(..)`). -/
def hasPending (table : List QuickActionRow) (contactId : Int) : Bool :=
  table.any fun r => r.contactId = contactId ∧ r.status = "pending"

/-- The deterministic template used when the external text generation fails
(braces escaped). -/
def fallbackMessage (petName : String) : String :=
  "\x7b\"sms_text\": \"PetPulse Alert: " ++ petName ++
    " needs attention.\", \"email_body\": \"Please check on " ++ petName ++
    ".\"\x7d"

/-- One loop iteration's row construction: the new row is inserted with
status `"pending"`. -/
def newQuickAction (nextId alertId : Nat) (c : Contact) (msg : String) :
    QuickActionRow :=
  { id := nextId, alertId := alertId, contactId := c.id,
    actionType := "message", message := msg, status := "pending" }

/-- Shallow embedding of the contact loop of `generate_quick_actions`:
`genText` is the external text-generation oracle (`none` = failure, which
falls back to the template); fresh row ids are drawn from a counter
(modelling `Uuid::new_v4`).  Returns the quick-action table after the run. -/
def generateQuickActions (genText : Int → Option String) (petName : String)
    (alertId : Nat) (contacts : List Contact) (table : List QuickActionRow)
    (nextId : Nat) : List QuickActionRow :=
  match contacts with
  | [] => table
  | c :: rest =>
    if hasPending table c.id then
      generateQuickActions genText petName alertId rest table nextId
    else
      let msg := (genText c.id).getD (fallbackMessage petName)
      generateQuickActions genText petName alertId rest
        (table ++ [newQuickAction nextId alertId c msg]) (nextId + 1)

/-! ## Digest aggregation (worker.rs, `process_digest_update_impl`)

Calendar dates are modelled as day indices derived from the row's creation
time (`created_at.date_naive()`); the RFC-3339 timestamp rendered into an
unusual-event descriptor is modelled by the raw creation time. -/

/-- One entry of a clip's parsed activity list (pet_video.rs `Activity`). -/
structure ActivityItem where
  activity : String
  mood : String
  description : String
  starttime : String
  endtime : String
  duration : String
  deriving Repr, DecidableEq

/-- A `pet_video` row as the digest worker reads it. -/
structure ClipRow where
  id : Nat
  petId : Int
  status : String
  createdAt : Nat
  /-- Parsed activities (`none` when the JSON is absent or does not parse as
  `Vec<Activity>` — such clips contribute no activities). -/
  activities : Option (List ActivityItem)
  mood : Option String
  description : Option String
  isUnusual : Bool
  deriving Repr, DecidableEq

/-- The UTC calendar date of a creation time (day index). -/
def dateOf (t : Nat) : Nat := t / 86400

/-- An unusual-event descriptor as aggregated into the digest row. -/
structure UnusualEvent where
  videoId : Nat
  description : String
  timestamp : Nat
  deriving Repr, DecidableEq

/-- The aggregate fields written into a `daily_digest` row. -/
structure DigestFields where
  summary : String
  moods : List String
  activities : List ActivityItem
  unusualEvents : List UnusualEvent
  totalVideos : Nat
  deriving Repr, DecidableEq

/-- A `daily_digest` row. -/
structure DigestRow where
  id : Nat
  petId : Int
  date : Nat
  fields : DigestFields
  createdAt : Nat
  updatedAt : Nat
  deriving Repr, DecidableEq

/-- The clip-set snapshot the worker aggregates: the pet's PROCESSED videos,
filtered client-side by calendar-date equality. -/
def videosForDate (petId : Int) (date : Nat) (videos : List ClipRow) :
    List ClipRow :=
  (videos.filter fun v => v.petId = petId ∧ v.status = "PROCESSED").filter
    fun v => dateOf v.createdAt = date

/-- Aggregation of one clip list into the digest fields (worker.rs steps 2-3):
activities concatenated in clip order, moods collected, unusual events
collected, and the human-readable summary string assembled. -/
def aggregateFields (petId : Int) (clips : List ClipRow) : DigestFields :=
  let allActivities := clips.flatMap fun v => v.activities.getD []
  let allMoods := clips.filterMap fun v => v.mood
  let allDescriptions := clips.filterMap fun v => v.description
  let unusual := (clips.filter fun v => v.isUnusual).map fun v =>
    { videoId := v.id
      description := v.description.getD "Unusual activity detected"
      timestamp := v.createdAt : UnusualEvent }
  { summary :=
      "Daily Summary for Pet " ++ toString petId ++ "\n\n" ++
      "Videos Processed: " ++ toString clips.length ++ "\n" ++
      "Moods: " ++
      (if allMoods.isEmpty then "None" else String.intercalate ", " allMoods) ++
      "\n" ++
      "Unusual Events: " ++ toString unusual.length ++ "\n\n" ++
      "Descriptions:\n" ++
      (if allDescriptions.isEmpty then "No descriptions available."
       else String.intercalate "\n\n" allDescriptions)
    moods := allMoods
    activities := allActivities
    unusualEvents := unusual
    totalVideos := clips.length }

/-- The find-existing query keyed by (pet, date) (`.one(db)` returns the
first match). -/
def findDigest (table : List DigestRow) (petId : Int) (date : Nat) :
    Option DigestRow :=
  table.find? fun r => r.petId = petId ∧ r.date = date

/-- A sea-orm update by primary key: the row whose id matches is replaced. -/
def updateById (table : List DigestRow) (theId : Nat) (newRow : DigestRow) :
    List DigestRow :=
  table.map fun r => if r.id = theId then newRow else r

/-- Shallow embedding of `process_digest_update_impl`: `videos` is the DB
snapshot of the pet's video rows, `newId`/`now` model `Uuid::new_v4` and
`Utc::now` for this run.  Returns the digest table after the run. -/
def processDigest (petId : Int) (date : Nat) (videos : List ClipRow)
    (table : List DigestRow) (newId : Nat) (now : Nat) : List DigestRow :=
  let clips := videosForDate petId date videos
  if clips.isEmpty then table
  else
    let fields := aggregateFields petId clips
    match findDigest table petId date with
    | some existing =>
      updateById table existing.id
        { existing with fields := fields, updatedAt := now }
    | none =>
      table ++ [{ id := newId, petId := petId, date := date, fields := fields,
                  createdAt := now, updatedAt := now }]

/-! ## Helper lemmas -/

/-- The window filter keeps everything when all candidates lie in the
window. -/
lemma recentAlertCount_all {l : List Nat} {now : Nat}
    (h : ∀ u ∈ l, now ≤ u + 3600) : recentAlertCount l now = l.length := by
  unfold recentAlertCount
  rw [List.filter_eq_self.mpr]
  intro a ha
  exact decide_eq_true (h a ha)

/-- The window filter keeps nothing when no candidate lies in the window. -/
lemma recentAlertCount_none {l : List Nat} {now : Nat}
    (h : ∀ u ∈ l, u + 3600 < now) : recentAlertCount l now = 0 := by
  unfold recentAlertCount
  rw [List.filter_eq_nil_iff.mpr]
  · rfl
  · intro a ha
    simp only [decide_eq_true_eq]
    have := h a ha
    omega

/-- The running count for the `m`-th alert never exceeds `m + 1`. -/
lemma countAt_le (t : Nat → Nat) (m : Nat) : countAt t m ≤ m + 1 := by
  unfold countAt currentAlertCount recentAlertCount
  have h := List.length_filter_le
    (fun u => decide (t m ≤ u + 3600)) ((List.range m).map t)
  simp only [List.length_map, List.length_range] at h
  omega

/-- The severity level recorded in the first persisted alert row of a trace. -/
def insertedSeverityLevel (tr : List AgentEffect) : Option String :=
  match tr with
  | AgentEffect.insertAlert _ _ _ lvl :: _ => some lvl
  | _ => none

/-- The pet id recorded in the first persisted alert row of a trace. -/
def insertedPetId (tr : List AgentEffect) : Option Int :=
  match tr with
  | AgentEffect.insertAlert pid _ _ _ :: _ => some pid
  | _ => none

/-- When the insert succeeds, the persisted row's `severity_level` column is
exactly `final_severity`, and the trace starts with that insert. -/
lemma processAlert_inserts (p : AlertPayload) (env : AgentEnv)
    (h : env.insertOk = true) :
    insertedSeverityLevel (processAlert p env) =
      some (finalSeverity (currentCountOf env) (resolveSeverityLevel p)) ∧
    insertedPetId (processAlert p env) = some ((parseI32 p.petId).getD 1) := by
  unfold processAlert
  rw [h]
  simp only [not_true_eq_false, if_false]
  split <;> simp [insertedSeverityLevel, insertedPetId]

/-! ## Claim theorems -/

/-- C1: for a fixed pet and alert type, with alerts persisted at times
`t 0, t 1, …`, if all alerts up to index `k` fall within one rolling hour of
each other, the running count computed for alert `k` is `k + 1` and is ≥ the
count computed for alert `k - 1`; and once the hour window contains no prior
same-type alert the count is 1. -/
theorem alert_count_monotone_within_hour (t : Nat → Nat) (k : Nat) :
    (0 < k → (∀ i j, i ≤ k → j ≤ k → t j ≤ t i + 3600) →
      countAt t (k - 1) ≤ countAt t k ∧ countAt t k = k + 1) ∧
    ((∀ j, j < k → t j + 3600 < t k) → countAt t k = 1) := by
  constructor
  · intro hk hwin
    have hfull : countAt t k = k + 1 := by
      unfold countAt currentAlertCount
      rw [recentAlertCount_all]
      · simp
      · intro u hu
        rcases List.mem_map.mp hu with ⟨j, hj, rfl⟩
        exact hwin j k (le_of_lt (List.mem_range.mp hj)) le_rfl
    refine ⟨?_, hfull⟩
    have hle := countAt_le t (k - 1)
    omega
  · intro hempty
    unfold countAt currentAlertCount
    rw [recentAlertCount_none]
    intro u hu
    rcases List.mem_map.mp hu with ⟨j, hj, rfl⟩
    exact hempty j (List.mem_range.mp hj)

/-- Witness for C1 at concrete inputs: three alerts at seconds 0, 1, 2 (all
within one hour), and a third alert one day after its two predecessors. -/
theorem alert_count_monotone_within_hour_witness :
    countAt (fun i => i) 1 ≤ countAt (fun i => i) 2 ∧
    countAt (fun i => i) 2 = 3 ∧
    countAt (fun j => j * 86400) 2 = 1 := by
  refine ⟨?_, ?_, ?_⟩
  · exact ((alert_count_monotone_within_hour (fun i => i) 2).1 (by decide)
      (by intro i j hi hj; omega)).1
  · exact ((alert_count_monotone_within_hour (fun i => i) 2).1 (by decide)
      (by intro i j hi hj; omega)).2
  · exact (alert_count_monotone_within_hour (fun j => j * 86400) 2).2
      (by intro j hj; interval_cases j <;> simp)

/-- C2: whenever the running same-type count (including the current alert)
reaches 5 and the resolved severity level is not `"critical"`, the persisted
alert row carries `severity_level = "high"`; otherwise the resolved severity
level is persisted unchanged. -/
theorem severity_escalation_override (p : AlertPayload) (env : AgentEnv)
    (h : env.insertOk = true) :
    (5 ≤ currentCountOf env → resolveSeverityLevel p ≠ "critical" →
      insertedSeverityLevel (processAlert p env) = some "high") ∧
    (currentCountOf env < 5 ∨ resolveSeverityLevel p = "critical" →
      insertedSeverityLevel (processAlert p env) =
        some (resolveSeverityLevel p)) := by
  have hins := (processAlert_inserts p env h).1
  constructor
  · intro h5 hc
    rw [hins]
    unfold finalSeverity
    rw [if_pos ⟨h5, hc⟩]
  · intro hcase
    rw [hins]
    unfold finalSeverity
    rcases hcase with h5 | hc
    · rw [if_neg]
      intro hcontra
      omega
    · rw [if_neg]
      intro hcontra
      exact hcontra.2 hc

/-- Witness for C2: a 5th `"medium"` alert is persisted as `"high"`; a 3rd
`"medium"` alert and a 5th `"critical"` alert are persisted unchanged. -/
theorem severity_escalation_override_witness :
    insertedSeverityLevel (processAlert
      ⟨"7", AlertType.Pacing, "low", none, some "medium", none, none⟩
      ⟨some 4, true, none⟩) = some "high" ∧
    insertedSeverityLevel (processAlert
      ⟨"7", AlertType.Pacing, "low", none, some "medium", none, none⟩
      ⟨some 2, true, none⟩) = some "medium" ∧
    insertedSeverityLevel (processAlert
      ⟨"7", AlertType.Pacing, "low", none, some "critical", none, none⟩
      ⟨some 4, true, none⟩) = some "critical" := by
  refine ⟨?_, ?_, ?_⟩
  · exact (severity_escalation_override _ _ rfl).1 (by decide) (by decide)
  · exact (severity_escalation_override _ _ rfl).2 (Or.inl (by decide))
  · exact (severity_escalation_override _ _ rfl).2 (Or.inr (by decide))

/-- C3 (divergence): for a job whose stored path `"badpath"` is a malformed
URI, the worker commits the `FAILED` write, but the `return` exits only the
download block, so the analysis step still runs on the never-written scratch
file, fails, and the retry logic then increments `retry_count`, overwrites
the status with `"Retrying"` and pushes the job back onto the video queue. -/
theorem malformed_uri_job_still_retried :
    processVideo ⟨7, "badpath", "PENDING", 0, false⟩
        ⟨DownloadResult.ok, true, Except.ok ⟨"low", false⟩⟩ =
      { job := ⟨7, "badpath", "Retrying", 1, false⟩
        writes := [⟨"PROCESSING", 0⟩, ⟨"FAILED", 0⟩, ⟨"Retrying", 1⟩]
        requeued := true
        digestEnqueued := false } := by
  decide

/-- C4 (divergence): for a job whose blob download fails, the worker does not
leave the job at `PROCESSING`: the analysis step still runs on the missing
scratch file, fails, and the job is committed as `"Retrying"` with
`retry_count` incremented and is requeued. -/
theorem download_failure_job_still_retried :
    processVideo ⟨7, "gs://bucket/key", "PENDING", 0, false⟩
        ⟨DownloadResult.err, true, Except.ok ⟨"low", false⟩⟩ =
      { job := ⟨7, "gs://bucket/key", "Retrying", 1, false⟩
        writes := [⟨"PROCESSING", 0⟩, ⟨"Retrying", 1⟩]
        requeued := true
        digestEnqueued := false } := by
  decide

/-- C5 (counterexample): a malformed-URI job commits a `FAILED` status write
while `retry_count = 0` (no retries attempted), and the retry status string
written by the worker is `"Retrying"`, not `"RETRYING"`. -/
theorem retry_invariant_counterexample :
    (⟨"FAILED", 0⟩ : JobWrite) ∈
      (processVideo ⟨7, "badpath", "PENDING", 0, false⟩
        ⟨DownloadResult.ok, true, Except.ok ⟨"low", false⟩⟩).writes ∧
    (processVideo ⟨7, "gs://bucket/key", "PENDING", 0, false⟩
        ⟨DownloadResult.ok, true, Except.error "service error"⟩).job.status =
      "Retrying" ∧
    "Retrying" ≠ "RETRYING" := by
  refine ⟨?_, by decide, by decide⟩
  decide

/-- C5 (amended): `retry_count` stays in {0, 1, 2}; an analysis failure with
`retry_count < 2` increments it, sets status `"Retrying"` and requeues; an
analysis failure with `retry_count = 2` sets terminal `FAILED` with no
requeue; a successful run leaves `retry_count` unchanged and does not
requeue; and the *final* status of a run is `FAILED` only when
`retry_count = 2` — though a malformed-URI run additionally commits a
transient `FAILED` write at the current `retry_count` mid-run. -/
theorem retry_invariant_amended (video : PetVideoRow) (env : WorkerEnv)
    (h0 : video.retryCount = 0 ∨ video.retryCount = 1 ∨ video.retryCount = 2) :
    (let r := processVideo video env
     (r.job.retryCount = 0 ∨ r.job.retryCount = 1 ∨ r.job.retryCount = 2) ∧
     (∀ e, analysisOutcome video env = Except.error e →
       (video.retryCount < 2 →
         r.job.retryCount = video.retryCount + 1 ∧
         r.job.status = "Retrying" ∧ r.requeued = true) ∧
       (video.retryCount = 2 →
         r.job.status = "FAILED" ∧ r.requeued = false ∧
         r.job.retryCount = 2)) ∧
     (∀ a, analysisOutcome video env = Except.ok a →
       r.job.retryCount = video.retryCount ∧ r.requeued = false) ∧
     (r.job.status = "FAILED" → video.retryCount = 2)) := by
  have hrc : (downloadBlock video).1.retryCount = video.retryCount := by
    unfold downloadBlock
    split <;> rfl
  cases hao : analysisOutcome video env with
  | ok a =>
    simp only [processVideo, hao]
    refine ⟨?_, ?_, ?_, ?_⟩
    · rw [hrc]
      omega
    · intro e he
      exact absurd he (by simp)
    · intro a' _
      exact ⟨hrc, trivial⟩
    · intro hst
      exact absurd hst (by simp)
  | error e =>
    simp only [processVideo, hao]
    by_cases hlt : video.retryCount < 2
    · simp only [if_pos hlt]
      refine ⟨by omega, ?_, ?_, ?_⟩
      · intro e' _
        exact ⟨fun _ => ⟨trivial, trivial, trivial⟩, fun h2 => absurd h2 (by omega)⟩
      · intro a' ha'
        exact absurd ha' (by simp)
      · intro hst
        exact absurd hst (by simp)
    · simp only [if_neg hlt]
      refine ⟨by omega, ?_, ?_, ?_⟩
      · intro e' _
        exact ⟨fun hc => absurd hc hlt, fun _ => ⟨trivial, trivial, by omega⟩⟩
      · intro a' ha'
        exact absurd ha' (by simp)
      · intro _
        omega

/-- Witness for C5 (amended) at a concrete failing job with
`retry_count = 2`. -/
theorem retry_invariant_amended_witness :
    (processVideo ⟨7, "gs://bucket/key", "PENDING", 2, false⟩
      ⟨DownloadResult.ok, true, Except.error "boom"⟩).job.status = "FAILED" ∧
    (processVideo ⟨7, "gs://bucket/key", "PENDING", 2, false⟩
      ⟨DownloadResult.ok, true, Except.error "boom"⟩).requeued = false := by
  have h := (retry_invariant_amended ⟨7, "gs://bucket/key", "PENDING", 2, false⟩
    ⟨DownloadResult.ok, true, Except.error "boom"⟩ (by decide)).2.1 "boom" rfl
  exact ⟨(h.2 rfl).1, (h.2 rfl).2.1⟩

/-- Modelled from the spec: rows 1-2 of the priority table of §4.3 step 5
(dim-lights for pacing/restlessness, play-calming-music for
vocalization/attention-seeking/unusual-behavior, log-only otherwise). -/
def specTableRow12 (t : AlertType) : Intervention :=
  match t with
  | AlertType.Pacing | AlertType.Restlessness =>
    Intervention.AdjustEnvironment EnvironmentAction.DimLights
  | AlertType.Vocalization | AlertType.AttentionSeeking
  | AlertType.UnusualBehavior => Intervention.PlayCalmingMusic
  | _ => Intervention.LogOnly

/-- Modelled from the spec, amended: row 3 of the priority table gives
dispense-treat for vocalization only (the code's `match` sends
attention-seeking through the catch-all to play-owner-voice). -/
def specTableRow3 (t : AlertType) : Intervention :=
  match t with
  | AlertType.Vocalization => Intervention.DispenseTreat
  | _ => Intervention.PlayOwnerVoice

/-- Modelled from the spec: the intervention priority table of §4.3 step 5,
keyed by (count bucket, alert type), amended at row 3 for
attention-seeking. -/
def specInterventionTable (t : AlertType) (c : Nat) : Intervention :=
  if c ≤ 2 then specTableRow12 t
  else if c = 3 then specTableRow3 t
  else Intervention.NotifyUser NotificationLevel.Standard

/-- C6 (counterexample): a 3rd attention-seeking alert gets
`PlayOwnerVoice`, not the `DispenseTreat` the claim's table row assigns to
vocalization/attention-seeking. -/
theorem intervention_table_counterexample :
    (decideIntervention AlertType.AttentionSeeking 3 "low").1 =
      Intervention.PlayOwnerVoice ∧
    (decideIntervention AlertType.AttentionSeeking 3 "low").1 ≠
      Intervention.DispenseTreat := by
  decide

/-- C6 (amended): for non-critical severity the decided intervention matches
the amended priority table (dispense-treat at count 3 only for vocalization,
play-owner-voice for every other type including attention-seeking); the
count-4 composite executes play-owner-voice immediately as a side action;
and critical severity always yields notify-user(critical), bypassing the
table. -/
theorem intervention_table_amended (t : AlertType) (c : Nat) (sev : String)
    (hsev : sev ≠ "critical") :
    (decideIntervention t c sev).1 = specInterventionTable t c ∧
    (decideIntervention t c sev).2 =
      (if c = 4 then executeActionEffects Intervention.PlayOwnerVoice
       else []) ∧
    (∀ c', (decideIntervention t c' "critical").1 =
      Intervention.NotifyUser NotificationLevel.Critical) := by
  refine ⟨?_, ?_, fun c' => by simp [decideIntervention]⟩
  · by_cases h2 : c ≤ 2
    · cases t <;>
        simp [decideIntervention, specInterventionTable, hsev, h2,
          interventionBucket12, specTableRow12]
    · by_cases h3 : c = 3
      · cases t <;>
          simp [decideIntervention, specInterventionTable, hsev, h2, h3,
            interventionBucket3, specTableRow3]
      · by_cases h4 : c = 4 <;>
          simp [decideIntervention, specInterventionTable, hsev, h2, h3, h4]
  · by_cases h2 : c ≤ 2
    · have h4 : c ≠ 4 := by omega
      simp [decideIntervention, hsev, h2, h4]
    · by_cases h3 : c = 3
      · have h4 : c ≠ 4 := by omega
        simp [decideIntervention, hsev, h2, h3, h4]
      · by_cases h4 : c = 4 <;>
          simp [decideIntervention, hsev, h2, h3, h4]

/-- Witness for C6 (amended) at concrete inputs: a 1st pacing alert dims the
lights with no side action; a 4th pacing alert records notify-user(standard)
with the play-owner-voice side action. -/
theorem intervention_table_amended_witness :
    (decideIntervention AlertType.Pacing 1 "low").1 =
      specInterventionTable AlertType.Pacing 1 ∧
    (decideIntervention AlertType.Pacing 4 "low").2 =
      executeActionEffects Intervention.PlayOwnerVoice := by
  constructor
  · exact (intervention_table_amended AlertType.Pacing 1 "low" (by decide)).1
  · have h :=
      (intervention_table_amended AlertType.Pacing 4 "low" (by decide)).2.1
    simpa using h

/-- C7: when the final severity is critical the engine performs no
monitoring wait and no outcome re-check, the notifier is invoked on both
the email and SMS channels, and the alert row is updated with
`notification_sent = true`, channels `{email, sms}` (together with
`user_notified_at`), `intervention_action = "CRITICAL_NOTIFICATION_SENT"`
and the awaiting-acknowledgement outcome. -/
theorem critical_alert_branch (p : AlertPayload) (env : AgentEnv)
    (hins : env.insertOk = true)
    (hcrit : finalSeverity (currentCountOf env) (resolveSeverityLevel p) =
      "critical") :
    (∀ n, AgentEffect.sleepSeconds n ∉ processAlert p env) ∧
    (∀ o, AgentEffect.updateOutcome o ∉ processAlert p env) ∧
    AgentEffect.notifySend "email" ∈ processAlert p env ∧
    AgentEffect.notifySend "sms" ∈ processAlert p env ∧
    AgentEffect.updateNotification true ["email", "sms"]
        "CRITICAL_NOTIFICATION_SENT" "Waiting for user acknowledgement" ∈
      processAlert p env ∧
    AgentEffect.genQuickActions "critical" ∈ processAlert p env := by
  unfold processAlert
  rw [hins]
  simp only [not_true_eq_false, if_false, hcrit, if_pos rfl,
    criticalBranchEffects]
  have hdec : decideIntervention p.alertType (currentCountOf env) "critical" =
      (Intervention.NotifyUser NotificationLevel.Critical, []) := by
    simp [decideIntervention]
  rw [hdec]
  simp [executeActionEffects, List.mem_cons, List.mem_append]

/-- Witness for C7 at a concrete critical payload. -/
theorem critical_alert_branch_witness :
    AgentEffect.notifySend "sms" ∈
      processAlert
        ⟨"7", AlertType.UnusualBehavior, "critical", some "m", some "critical",
          none, some "v1"⟩
        ⟨some 0, true, none⟩ ∧
    (∀ n, AgentEffect.sleepSeconds n ∉
      processAlert
        ⟨"7", AlertType.UnusualBehavior, "critical", some "m", some "critical",
          none, some "v1"⟩
        ⟨some 0, true, none⟩) := by
  have h := critical_alert_branch
    ⟨"7", AlertType.UnusualBehavior, "critical", some "m", some "critical",
      none, some "v1"⟩
    ⟨some 0, true, none⟩ rfl (by decide)
  exact ⟨h.2.2.2.1, h.1⟩

/-- Number of `pending` quick-action rows for one contact. -/
def pendingFor (table : List QuickActionRow) (cid : Int) : Nat :=
  (table.filter fun r => r.contactId = cid ∧ r.status = "pending").length

/-- Appending tables adds pending counts. -/
lemma pendingFor_append (t1 t2 : List QuickActionRow) (cid : Int) :
    pendingFor (t1 ++ t2) cid = pendingFor t1 cid + pendingFor t2 cid := by
  simp [pendingFor, List.filter_append]

/-- The dedup query over an appended table. -/
lemma hasPending_append (t1 t2 : List QuickActionRow) (cid : Int) :
    hasPending (t1 ++ t2) cid = (hasPending t1 cid || hasPending t2 cid) := by
  simp [hasPending, List.any_append]

/-- A contact with no pending row has pending count 0. -/
lemma pendingFor_of_not_hasPending {t : List QuickActionRow} {cid : Int}
    (h : hasPending t cid = false) : pendingFor t cid = 0 := by
  unfold hasPending at h
  unfold pendingFor
  rw [List.filter_eq_nil_iff.mpr]
  · rfl
  · intro r hr
    have := List.any_eq_false.mp h r hr
    simpa using this

/-- C9 (counterexample): generating quick actions for one contact with no
prior pending row leaves the new row in `pending` status — it is never
marked `sent` by the generator. -/
theorem quick_action_counterexample :
    (generateQuickActions (fun _ => none) "Rex" 3 [⟨5, "Sam", "friend"⟩] [] 0
      ).length = 1 ∧
    (∀ r ∈ generateQuickActions (fun _ => none) "Rex" 3 [⟨5, "Sam", "friend"⟩]
      [] 0, r.status = "pending" ∧ r.status ≠ "sent") := by
  constructor
  · rfl
  · decide

/-- C9 (amended): for every contact considered, generation skips contacts
that already have a pending quick action (no new row for them); every row it
does create is persisted in `pending` status and stays pending (it is not
marked sent by the generator); a contact with no pending row gets exactly one
new pending row; and no contact ever ends up with two pending rows. -/
theorem quick_action_generation_amended (genText : Int → Option String)
    (petName : String) (alertId : Nat) :
    ∀ (contacts : List Contact) (table : List QuickActionRow) (nextId : Nat),
    ∃ newRows,
      generateQuickActions genText petName alertId contacts table nextId =
        table ++ newRows ∧
      (∀ r ∈ newRows, r.status = "pending") ∧
      (∀ cid, hasPending table cid = true →
        ∀ r ∈ newRows, r.contactId ≠ cid) ∧
      (∀ c ∈ contacts, hasPending table c.id = false →
        ∃ r ∈ newRows, r.contactId = c.id ∧ r.status = "pending") ∧
      (∀ cid, pendingFor table cid ≤ 1 →
        pendingFor (table ++ newRows) cid ≤ 1) := by
  intro contacts
  induction contacts with
  | nil =>
    intro table nextId
    refine ⟨[], by simp [generateQuickActions], by simp, by simp, by simp, ?_⟩
    intro cid h
    simpa using h
  | cons c rest ih =>
    intro table nextId
    by_cases hp : hasPending table c.id
    · rcases ih table nextId with ⟨nr, h1, h2, h3, h4, h5⟩
      refine ⟨nr, ?_, h2, h3, ?_, h5⟩
      · rw [generateQuickActions, if_pos hp]
        exact h1
      · intro c' hc' hfalse
        rcases List.mem_cons.mp hc' with rfl | hmem
        · rw [hp] at hfalse
          cases hfalse
        · exact h4 c' hmem hfalse
    · rw [Bool.not_eq_true] at hp
      rcases ih (table ++
          [newQuickAction nextId alertId c
            ((genText c.id).getD (fallbackMessage petName))]) (nextId + 1) with
        ⟨nr, h1, h2, h3, h4, h5⟩
      refine ⟨newQuickAction nextId alertId c
        ((genText c.id).getD (fallbackMessage petName)) :: nr, ?_, ?_, ?_, ?_, ?_⟩
      · rw [generateQuickActions, if_neg (by simp [hp])]
        rw [h1, List.append_assoc]
        rfl
      · intro r hr
        rcases List.mem_cons.mp hr with rfl | hmem
        · rfl
        · exact h2 r hmem
      · intro cid hcid r hr
        rcases List.mem_cons.mp hr with rfl | hmem
        · intro hcontra
          rw [show (newQuickAction nextId alertId c
              ((genText c.id).getD (fallbackMessage petName))).contactId = c.id
            from rfl] at hcontra
          rw [hcontra] at hp
          rw [hp] at hcid
          cases hcid
        · refine h3 cid ?_ r hmem
          rw [hasPending_append, hcid]
          rfl
      · intro c' hc' hfalse
        rcases List.mem_cons.mp hc' with rfl | hmem
        · exact ⟨newQuickAction nextId alertId c'
            ((genText c'.id).getD (fallbackMessage petName)),
            List.mem_cons_self _ _, rfl, rfl⟩
        · by_cases hstill : hasPending (table ++
            [newQuickAction nextId alertId c
              ((genText c.id).getD (fallbackMessage petName))]) c'.id
          · -- the only way the appended table has a pending row for c' is
            -- that the new row matches, i.e. c'.id = c.id
            rw [hasPending_append, hfalse] at hstill
            have hrow : c'.id = c.id := by
              simp only [Bool.false_or, hasPending, List.any_cons,
                List.any_nil, Bool.or_false] at hstill
              have := of_decide_eq_true hstill
              exact this.1.symm
            refine ⟨newQuickAction nextId alertId c
              ((genText c.id).getD (fallbackMessage petName)),
              List.mem_cons_self _ _, ?_, rfl⟩
            rw [hrow]
            rfl
          · rw [Bool.not_eq_true] at hstill
            rcases h4 c' hmem hstill with ⟨r, hrmem, hrid, hrst⟩
            exact ⟨r, List.mem_cons_of_mem _ hrmem, hrid, hrst⟩
      · intro cid hle
        have hle' : pendingFor (table ++
            [newQuickAction nextId alertId c
              ((genText c.id).getD (fallbackMessage petName))]) cid ≤ 1 := by
          rw [pendingFor_append]
          by_cases hcc : c.id = cid
          · have h0 : pendingFor table cid = 0 := by
              rw [← hcc]
              exact pendingFor_of_not_hasPending hp
            have h1' : pendingFor
                [newQuickAction nextId alertId c
                  ((genText c.id).getD (fallbackMessage petName))] cid ≤ 1 := by
              unfold pendingFor
              exact List.length_filter_le _ _
            omega
          · have h0 : pendingFor
                [newQuickAction nextId alertId c
                  ((genText c.id).getD (fallbackMessage petName))] cid = 0 := by
              unfold pendingFor
              rw [List.filter_eq_nil_iff.mpr]
              · rfl
              · intro r hr
                rcases List.mem_singleton.mp hr with rfl
                simp [newQuickAction, hcc]
            omega
        have := h5 cid hle'
        simpa using this

/-- Witness for C9 (amended) at a concrete input: one contact with an
existing pending row for another contact. -/
theorem quick_action_generation_amended_witness :
    ∃ newRows,
      generateQuickActions (fun _ => none) "Rex" 3 [⟨5, "Sam", "friend"⟩]
          [⟨9, 3, 6, "message", "m", "pending"⟩] 1 =
        ⟨9, 3, 6, "message", "m", "pending"⟩ :: newRows ∧
      ∀ r ∈ newRows, r.status = "pending" := by
  rcases quick_action_generation_amended (fun _ => none) "Rex" 3
    [⟨5, "Sam", "friend"⟩] [⟨9, 3, 6, "message", "m", "pending"⟩] 1 with
    ⟨nr, h1, h2, _⟩
  exact ⟨nr, h1, h2⟩

/-- C10: an alert payload whose `pet_id` does not parse as an `i32` is not
rejected: the engine substitutes pet id 1 and still runs the pipeline
(the alert row is persisted for pet 1 and an intervention is decided and
recorded). -/
theorem unparseable_pet_id_falls_back_to_one (p : AlertPayload)
    (env : AgentEnv) (hp : parseI32 p.petId = none)
    (hins : env.insertOk = true) :
    insertedPetId (processAlert p env) = some 1 ∧
    ∃ a, AgentEffect.updateIntervention a ∈ processAlert p env := by
  have h := (processAlert_inserts p env hins).2
  rw [hp] at h
  refine ⟨by simpa using h, ?_⟩
  refine ⟨interventionDebug (decideIntervention p.alertType (currentCountOf env)
    (finalSeverity (currentCountOf env) (resolveSeverityLevel p))).1, ?_⟩
  unfold processAlert
  rw [hins]
  simp only [not_true_eq_false, if_false]
  split <;> simp

/-- Witness for C10 at a concrete non-numeric `pet_id`. -/
theorem unparseable_pet_id_falls_back_to_one_witness :
    insertedPetId (processAlert
      ⟨"not-a-number", AlertType.Comfort, "low", none, none, none, none⟩
      ⟨some 0, true, some true⟩) = some 1 := by
  exact (unparseable_pet_id_falls_back_to_one
    ⟨"not-a-number", AlertType.Comfort, "low", none, none, none, none⟩
    ⟨some 0, true, some true⟩ (by decide) rfl).1

/-- Number of digest rows stored under one (pet, date) key. -/
def keyCount (table : List DigestRow) (petId : Int) (date : Nat) : Nat :=
  (table.filter fun r => r.petId = petId ∧ r.date = date).length

/-- Appending tables adds key counts. -/
lemma keyCount_append (t1 t2 : List DigestRow) (pid : Int) (d : Nat) :
    keyCount (t1 ++ t2) pid d = keyCount t1 pid d + keyCount t2 pid d := by
  simp [keyCount, List.filter_append]

/-- `findDigest` on a cons whose head matches the key. -/
lemma findDigest_cons_pos {r : DigestRow} {t : List DigestRow} {pid : Int}
    {d : Nat} (hc : r.petId = pid ∧ r.date = d) :
    findDigest (r :: t) pid d = some r := by
  simp [findDigest, List.find?_cons, hc]

/-- `findDigest` on a cons whose head misses the key. -/
lemma findDigest_cons_neg {r : DigestRow} {t : List DigestRow} {pid : Int}
    {d : Nat} (hc : ¬(r.petId = pid ∧ r.date = d)) :
    findDigest (r :: t) pid d = findDigest t pid d := by
  simp [findDigest, List.find?_cons, hc]

/-- `keyCount` on a cons whose head matches the key. -/
lemma keyCount_cons_pos {r : DigestRow} {t : List DigestRow} {pid : Int}
    {d : Nat} (hc : r.petId = pid ∧ r.date = d) :
    keyCount (r :: t) pid d = keyCount t pid d + 1 := by
  simp [keyCount, List.filter_cons, hc]

/-- `keyCount` on a cons whose head misses the key. -/
lemma keyCount_cons_neg {r : DigestRow} {t : List DigestRow} {pid : Int}
    {d : Nat} (hc : ¬(r.petId = pid ∧ r.date = d)) :
    keyCount (r :: t) pid d = keyCount t pid d := by
  simp [keyCount, List.filter_cons, hc]

/-- `updateById` unfolded over a cons. -/
lemma updateById_cons (r : DigestRow) (t : List DigestRow) (theId : Nat)
    (newRow : DigestRow) :
    updateById (r :: t) theId newRow =
      (if r.id = theId then newRow else r) :: updateById t theId newRow := by
  simp [updateById]

/-- If the key is absent, the key count is zero. -/
lemma keyCount_of_findDigest_none {table : List DigestRow} {pid : Int}
    {d : Nat} (h : findDigest table pid d = none) : keyCount table pid d = 0 := by
  induction table with
  | nil => rfl
  | cons r t ih =>
    by_cases hc : (r.petId = pid ∧ r.date = d)
    · rw [findDigest_cons_pos hc] at h
      cases h
    · rw [findDigest_cons_neg hc] at h
      rw [keyCount_cons_neg hc]
      exact ih h

/-- Searching an appended table when the left part misses the key. -/
lemma findDigest_append_none {t1 : List DigestRow} {pid : Int} {d : Nat}
    (h : findDigest t1 pid d = none) (t2 : List DigestRow) :
    findDigest (t1 ++ t2) pid d = findDigest t2 pid d := by
  induction t1 with
  | nil => rfl
  | cons r t ih =>
    by_cases hc : (r.petId = pid ∧ r.date = d)
    · rw [findDigest_cons_pos hc] at h
      cases h
    · rw [findDigest_cons_neg hc] at h
      rw [List.cons_append, findDigest_cons_neg hc]
      exact ih h

/-- An update whose id hits no row leaves the table unchanged. -/
lemma updateById_of_not_mem {table : List DigestRow} {theId : Nat}
    {newRow : DigestRow} (h : ∀ r ∈ table, r.id ≠ theId) :
    updateById table theId newRow = table := by
  induction table with
  | nil => rfl
  | cons r t ih =>
    rw [updateById_cons, if_neg (h r (List.mem_cons_self r t)),
      ih fun r' hr' => h r' (List.mem_cons_of_mem _ hr')]

/-- An id-preserving update keeps the table's id column. -/
lemma updateById_map_id {table : List DigestRow} {theId : Nat}
    {newRow : DigestRow} (h : newRow.id = theId) :
    (updateById table theId newRow).map DigestRow.id =
      table.map DigestRow.id := by
  induction table with
  | nil => rfl
  | cons r t ih =>
    rw [updateById_cons, List.map_cons, List.map_cons, ih]
    by_cases hc : r.id = theId
    · rw [if_pos hc, h, hc]
    · rw [if_neg hc]

/-- Updates preserve the table's length. -/
lemma updateById_length (table : List DigestRow) (theId : Nat)
    (newRow : DigestRow) :
    (updateById table theId newRow).length = table.length := by
  simp [updateById]

/-- The core upsert-hit lemma: when the (pet, date) key is held by exactly
one row `ex` of a table with distinct ids, replacing `ex` by a row with the
same id and the same key makes that row the unique key holder. -/
lemma findDigest_update_hit (newRow : DigestRow) {table : List DigestRow}
    {pid : Int} {d : Nat} {ex : DigestRow}
    (hfind : findDigest table pid d = some ex)
    (hnodup : (table.map DigestRow.id).Nodup)
    (hkey : keyCount table pid d ≤ 1) (hid : newRow.id = ex.id)
    (hmatch : newRow.petId = pid ∧ newRow.date = d) :
    findDigest (updateById table ex.id newRow) pid d = some newRow ∧
    keyCount (updateById table ex.id newRow) pid d = 1 ∧
    (updateById table ex.id newRow).map DigestRow.id =
      table.map DigestRow.id ∧
    (updateById table ex.id newRow).length = table.length := by
  induction table with
  | nil => cases hfind
  | cons r t ih =>
    rw [List.map_cons, List.nodup_cons] at hnodup
    by_cases hc : (r.petId = pid ∧ r.date = d)
    · rw [findDigest_cons_pos hc] at hfind
      have hex : r = ex := by injection hfind
      subst hex
      have hkt : keyCount t pid d = 0 := by
        rw [keyCount_cons_pos hc] at hkey
        omega
      have hnot : ∀ r' ∈ t, r'.id ≠ r.id := by
        intro r' hr' hcontra
        exact hnodup.1 (hcontra ▸ List.mem_map_of_mem DigestRow.id hr')
      rw [updateById_cons, if_pos rfl, updateById_of_not_mem hnot]
      refine ⟨findDigest_cons_pos hmatch, ?_, ?_, by simp⟩
      · rw [keyCount_cons_pos hmatch, hkt]
      · rw [List.map_cons, List.map_cons, hid]
    · rw [findDigest_cons_neg hc] at hfind
      have hexmem : ex ∈ t := List.mem_of_find?_eq_some hfind
      have hrne : r.id ≠ ex.id := by
        intro hcontra
        exact hnodup.1 (hcontra ▸ List.mem_map_of_mem DigestRow.id hexmem)
      have hkeyt : keyCount t pid d ≤ 1 := by
        rw [keyCount_cons_neg hc] at hkey
        exact hkey
      rcases ih hfind hnodup.2 hkeyt with ⟨ih1, ih2, ih3, ih4⟩
      rw [updateById_cons, if_neg hrne]
      refine ⟨?_, ?_, ?_, by simpa using ih4⟩
      · rw [findDigest_cons_neg hc]
        exact ih1
      · rw [keyCount_cons_neg hc]
        exact ih2
      · rw [List.map_cons, List.map_cons, ih3]

/-- C8: digest aggregation is idempotent.  Starting from a digest table with
distinct row ids, at most one row under the (pet, date) key, and a fresh id
for the first run, running the digest worker twice over the same clip
snapshot yields identical digest fields in both runs (equal to the aggregate
of the date's clips), with the second run overwriting rather than inserting:
after it the key holds exactly one row and the table length is unchanged. -/
theorem digest_aggregation_idempotent (pid : Int) (d : Nat)
    (videos : List ClipRow) (table : List DigestRow) (id1 now1 id2 now2 : Nat)
    (hkey : keyCount table pid d ≤ 1)
    (hnodup : (table.map DigestRow.id).Nodup)
    (hfresh : ∀ r ∈ table, r.id ≠ id1) :
    (let t1 := processDigest pid d videos table id1 now1
     let t2 := processDigest pid d videos t1 id2 now2
     ((findDigest t1 pid d).map DigestRow.fields =
       (findDigest t2 pid d).map DigestRow.fields) ∧
     (videosForDate pid d videos = [] → t1 = table ∧ t2 = table) ∧
     (videosForDate pid d videos ≠ [] →
       (findDigest t2 pid d).map DigestRow.fields =
         some (aggregateFields pid (videosForDate pid d videos)) ∧
       keyCount t2 pid d = 1 ∧ t2.length = t1.length)) := by
  dsimp only
  by_cases hemp : (videosForDate pid d videos).isEmpty
  · have heq : processDigest pid d videos table id1 now1 = table := by
      rw [processDigest, if_pos hemp]
    have heq2 : processDigest pid d videos table id2 now2 = table := by
      rw [processDigest, if_pos hemp]
    simp only [heq, heq2]
    refine ⟨trivial, fun _ => ⟨trivial, trivial⟩, fun hne => ?_⟩
    exact absurd (List.isEmpty_iff.mp hemp) hne
  · have hne : videosForDate pid d videos ≠ [] := by
      intro hcon
      rw [hcon] at hemp
      exact hemp rfl
    cases hf : findDigest table pid d with
    | some ex =>
      have hexkey : ex.petId = pid ∧ ex.date = d := by
        have := List.find?_some hf
        simpa using this
      set F := aggregateFields pid (videosForDate pid d videos) with hF
      set r1 : DigestRow := { ex with fields := F, updatedAt := now1 }
        with hr1
      set r2 : DigestRow := { r1 with fields := F, updatedAt := now2 }
        with hr2
      have ht1 : processDigest pid d videos table id1 now1 =
          updateById table ex.id r1 := by
        rw [processDigest, if_neg hemp, hf]
      have hm1 : r1.petId = pid ∧ r1.date = d := ⟨hexkey.1, hexkey.2⟩
      rcases findDigest_update_hit r1 hf hnodup hkey rfl hm1 with
        ⟨hfd1, hkc1, hids1, hlen1⟩
      rw [← ht1] at hfd1 hkc1 hids1 hlen1
      have ht2 : processDigest pid d videos
          (processDigest pid d videos table id1 now1) id2 now2 =
          updateById (processDigest pid d videos table id1 now1) r1.id r2 := by
        rw [processDigest, if_neg hemp, hfd1]
      have hm2 : r2.petId = pid ∧ r2.date = d := ⟨hexkey.1, hexkey.2⟩
      rcases findDigest_update_hit r2 hfd1 (by rw [hids1]; exact hnodup)
          (by omega) rfl hm2 with ⟨hfd2, hkc2, _, hlen2⟩
      rw [← ht2] at hfd2 hkc2 hlen2
      refine ⟨?_, fun hcon => absurd hcon hne, fun _ => ⟨?_, hkc2, hlen2⟩⟩
      · rw [hfd1, hfd2]
        rfl
      · rw [hfd2]
        rfl
    | none =>
      have hkc0 : keyCount table pid d = 0 := keyCount_of_findDigest_none hf
      set F := aggregateFields pid (videosForDate pid d videos) with hF
      set fresh : DigestRow := ⟨id1, pid, d, F, now1, now1⟩ with hfreshdef
      set r2 : DigestRow := { fresh with fields := F, updatedAt := now2 }
        with hr2
      have ht1 : processDigest pid d videos table id1 now1 =
          table ++ [fresh] := by
        rw [processDigest, if_neg hemp, hf]
      have hfd1 : findDigest (processDigest pid d videos table id1 now1) pid d =
          some fresh := by
        rw [ht1, findDigest_append_none hf]
        exact findDigest_cons_pos ⟨rfl, rfl⟩
      have hkc1 : keyCount (processDigest pid d videos table id1 now1) pid d
          = 1 := by
        rw [ht1, keyCount_append, hkc0, keyCount_cons_pos ⟨rfl, rfl⟩]
        rfl
      have hids1 : ((processDigest pid d videos table id1 now1).map
          DigestRow.id).Nodup := by
        rw [ht1, List.map_append, List.nodup_append]
        refine ⟨hnodup, List.nodup_singleton _, ?_⟩
        intro a ha hb
        rcases List.mem_map.mp ha with ⟨r, hr, rfl⟩
        simp only [List.map_cons, List.map_nil, List.mem_singleton] at hb
        exact hfresh r hr hb
      have ht2 : processDigest pid d videos
          (processDigest pid d videos table id1 now1) id2 now2 =
          updateById (processDigest pid d videos table id1 now1) fresh.id
            r2 := by
        rw [processDigest, if_neg hemp, hfd1]
      have hm2 : r2.petId = pid ∧ r2.date = d := ⟨rfl, rfl⟩
      rcases findDigest_update_hit r2 hfd1 hids1 (by omega) rfl hm2 with
        ⟨hfd2, hkc2, _, hlen2⟩
      rw [← ht2] at hfd2 hkc2 hlen2
      refine ⟨?_, fun hcon => absurd hcon hne, fun _ => ⟨?_, hkc2, ?_⟩⟩
      · rw [hfd1, hfd2]
        rfl
      · rw [hfd2]
        rfl
      · rw [hlen2]

/-- Witness for C8: one processed clip for pet 3 on day 0, starting from an
empty digest table. -/
theorem digest_aggregation_idempotent_witness :
    (let clip : ClipRow :=
      ⟨11, 3, "PROCESSED", 0, none, some "calm", some "nap", false⟩
     let t1 := processDigest 3 0 [clip] [] 0 0
     let t2 := processDigest 3 0 [clip] t1 1 5
     (findDigest t1 3 0).map DigestRow.fields =
       (findDigest t2 3 0).map DigestRow.fields ∧
     keyCount t2 3 0 = 1 ∧ t2.length = t1.length) := by
  have h := digest_aggregation_idempotent 3 0
    [⟨11, 3, "PROCESSED", 0, none, some "calm", some "nap", false⟩] [] 0 0 1 5
    (by simp [keyCount]) (by simp) (by simp)
  have hne : videosForDate 3 0
      [⟨11, 3, "PROCESSED", 0, none, some "calm", some "nap", false⟩] ≠ [] := by
    decide
  exact ⟨h.1, (h.2.2 hne).2.1, (h.2.2 hne).2.2⟩

end PetPulse
